import Mathlib

/-!
Verification of `kerchunk/grib2.py` against its specification.

Each Python function relevant to the claims is shallowly embedded as an
executable Lean definition; machine integers are modelled as `Int`
(pandas offsets/lengths are arbitrary-precision here, overflow is not a
concern for file offsets), fallible code returns `Except`/`Option`.
-/

/-! ## `build_path` (grib2.py lines 658-673)

Python:
`return "/".join([val for val in [*path, suffix] if val is not None]).lstrip("/")`
-/

/-! Executable character-level helpers standing in for Python's
`str.split(sep)` and `int(...)` (Lean's `String.splitOn`/`String.toInt?`
use well-founded recursion, which the kernel cannot evaluate). -/

/-- Python `str.split(sep)` on a character list: always returns at least
one (possibly empty) piece. -/
def split_on_char (sep : Char) : List Char → List (List Char)
  | [] => [[]]
  | c :: rest =>
    if c = sep then [] :: split_on_char sep rest
    else
      match split_on_char sep rest with
      | s :: ss => (c :: s) :: ss
      | [] => [[c]]

/-- Python `str.split(sep)` on strings. -/
def str_split_on (sep : Char) (s : String) : List String :=
  (split_on_char sep s.data).map (fun cs => ⟨cs⟩)

/-- Decimal digit accumulator for `int(...)`. -/
def parse_digits (acc : Nat) : List Char → Option Nat
  | [] => some acc
  | c :: rest =>
    if c.isDigit then parse_digits (acc * 10 + (c.toNat - '0'.toNat)) rest
    else none

/-- Python `int(...)` on a character list (optional leading minus sign). -/
def parse_int_chars : List Char → Option Int
  | [] => none
  | '-' :: rest =>
    match rest with
    | [] => none
    | _ => (parse_digits 0 rest).map (fun n => -(n : Int))
  | l => (parse_digits 0 l).map (fun n => (n : Int))

/-- Python `s.lstrip("/")`: remove every leading `/` character. -/
def lstrip_slash (s : String) : String :=
  ⟨s.data.dropWhile (fun c => c == '/')⟩

/-- `build_path` from grib2.py: join the non-`None` elements of
`[*path, suffix]` with `/` and strip leading slashes. -/
def build_path (path : List (Option String)) (suffix : Option String) : String :=
  lstrip_slash (String.intercalate "/" ((path ++ [suffix]).filterMap id))

lemma dropWhile_head_not (p : α → Bool) (l : List α) :
    ∀ a ∈ (l.dropWhile p).head?, p a = false := by
  induction l with
  | nil => simp [List.dropWhile]
  | cons x xs ih =>
    intro a ha
    by_cases hx : p x
    · rw [List.dropWhile_cons_of_pos hx] at ha
      exact ih a ha
    · rw [List.dropWhile_cons_of_neg hx] at ha
      simp only [List.head?_cons, Option.mem_def, Option.some.injEq] at ha
      subst ha
      simpa using hx

lemma lstrip_slash_head (s : String) :
    (lstrip_slash s).data.head? ≠ some '/' := by
  intro h
  have := dropWhile_head_not (fun c => c == '/') s.data '/' h
  simp at this

/-! ## `parse_grib_idx` (grib2.py lines 597-655)

The idx file is a text file of colon-delimited lines
`<idx>:<offset>:<date>:<attrs>` (pandas `str.split(":", n=3)`, so any
further colons stay inside `attrs`).  The derived `length` column is
`offset.shift(-1, fill_value=size) - offset`.  With `validate=True` a
non-unique `attrs` column raises `ValueError`.
-/

/-- One parsed line of the `.idx` side-channel file. -/
structure RawIdxLine where
  idx : Int
  offset : Int
  date : String
  attrs : String
deriving Repr, DecidableEq

/-- One row of the dataframe returned by `parse_grib_idx`
(the constant `idx_uri`/`grib_uri` columns are omitted). -/
structure IdxEntry where
  idx : Int
  offset : Int
  date : String
  attrs : String
  length : Int
deriving Repr, DecidableEq

/-- Split one idx line on `:` with at most 3 splits (pandas `n=3`) and
convert the first two fields to integers. -/
def parse_idx_line (line : String) : Option RawIdxLine :=
  match str_split_on ':' line with
  | i :: o :: d :: a :: rest =>
    match parse_int_chars i.data, parse_int_chars o.data with
    | some iv, some ov => some ⟨iv, ov, d, String.intercalate ":" (a :: rest)⟩
    | _, _ => none
  | _ => none

/-- `offset.shift(periods=-1, fill_value=size) - offset`:
entry `i` gets `offset[i+1] - offset[i]`, the last entry gets
`size - offset[last]`. -/
def grib_idx_lengths (offsets : List Int) (size : Int) : List Int :=
  List.zipWith (fun nxt cur => nxt - cur) (offsets.drop 1 ++ [size]) offsets

/-- Pandas `not series.is_unique`: the list has a repeated element. -/
def has_dup : List String → Bool
  | [] => false
  | x :: xs => xs.contains x || has_dup xs

lemma has_dup_eq_false_iff (l : List String) : has_dup l = false ↔ l.Nodup := by
  induction l with
  | nil => simp [has_dup]
  | cons x xs ih =>
    simp [has_dup, List.nodup_cons, ih, List.elem_iff]

/-- Model of `parse_grib_idx`: parse all lines, attach derived lengths,
and (when `validate` is set) fail on a non-unique `attrs` column. -/
def parse_grib_idx (lines : List String) (size : Int) (validate : Bool) :
    Except String (List IdxEntry) :=
  match lines.mapM parse_idx_line with
  | none => .error "malformed idx line"
  | some raw =>
    let lens := grib_idx_lengths (raw.map (·.offset)) size
    let entries : List IdxEntry := (raw.zip lens).map
      (fun p => ⟨p.1.idx, p.1.offset, p.1.date, p.1.attrs, p.2⟩)
    if validate && has_dup (entries.map (·.attrs)) then
      .error "attribute mapping is not unique"
    else
      .ok entries

lemma grib_idx_lengths_nil (size : Int) : grib_idx_lengths [] size = [] := rfl

lemma grib_idx_lengths_singleton (a size : Int) :
    grib_idx_lengths [a] size = [size - a] := rfl

lemma grib_idx_lengths_cons_cons (a b : Int) (rest : List Int) (size : Int) :
    grib_idx_lengths (a :: b :: rest) size =
      (b - a) :: grib_idx_lengths (b :: rest) size := rfl

lemma grib_idx_lengths_length (offsets : List Int) (size : Int) :
    (grib_idx_lengths offsets size).length = offsets.length := by
  cases offsets with
  | nil => rfl
  | cons a rest =>
    simp [grib_idx_lengths, List.length_zipWith]

lemma grib_idx_lengths_getElem? (offsets : List Int) (size : Int) :
    ∀ (i : Nat) (h : i + 1 < offsets.length),
      (grib_idx_lengths offsets size)[i]? = some (offsets[i + 1] - offsets[i]) := by
  induction offsets with
  | nil => intro i h; simp at h
  | cons a rest ih =>
    intro i h
    cases rest with
    | nil => simp at h
    | cons b rest2 =>
      rw [grib_idx_lengths_cons_cons]
      cases i with
      | zero => simp
      | succ n =>
        have hn : n + 1 < (b :: rest2).length := by
          simpa [Nat.succ_lt_succ_iff] using h
        simpa using ih n hn

lemma grib_idx_lengths_getLast? (offsets : List Int) (size : Int) :
    (grib_idx_lengths offsets size).getLast? =
      offsets.getLast?.map (fun o => size - o) := by
  induction offsets with
  | nil => rfl
  | cons a rest ih =>
    cases rest with
    | nil => rfl
    | cons b rest2 =>
      rw [grib_idx_lengths_cons_cons, List.getLast?_cons_cons, ← ih]
      cases rest2 with
      | nil => rfl
      | cons c rest3 =>
        rw [grib_idx_lengths_cons_cons]
        exact List.getLast?_cons_cons

lemma zip_entries_attrs (raw : List RawIdxLine) (lens : List Int)
    (h : raw.length ≤ lens.length) :
    (((raw.zip lens).map
        (fun p => (⟨p.1.idx, p.1.offset, p.1.date, p.1.attrs, p.2⟩ : IdxEntry))).map
      (·.attrs)) = raw.map (·.attrs) := by
  induction raw generalizing lens with
  | nil => simp
  | cons r rest ih =>
    cases lens with
    | nil => simp at h
    | cons l ls =>
      simp only [List.zip_cons_cons, List.map_cons, List.cons.injEq]
      exact ⟨trivial, ih ls (by simpa using h)⟩

/-- C4: `parse_grib_idx` derives each entry's `length` as the next
entry's offset minus its own offset, the last entry's `length` as the
total resource size minus its offset; for the 3-line listing with
offsets 0, 120, 300 and resource size 450 the derived lengths are
[120, 180, 150]. -/
theorem parse_grib_idx_forward_difference :
    (∀ (offsets : List Int) (size : Int) (i : Nat) (h : i + 1 < offsets.length),
      (grib_idx_lengths offsets size)[i]? = some (offsets[i + 1] - offsets[i])) ∧
    (∀ (offsets : List Int) (size : Int),
      (grib_idx_lengths offsets size).getLast? =
        offsets.getLast?.map (fun o => size - o)) ∧
    parse_grib_idx ["0:0:d1:A", "1:120:d2:B", "2:300:d3:C"] 450 false =
      .ok [⟨0, 0, "d1", "A", 120⟩, ⟨1, 120, "d2", "B", 180⟩,
           ⟨2, 300, "d3", "C", 150⟩] :=
  ⟨grib_idx_lengths_getElem?, grib_idx_lengths_getLast?, rfl⟩

/-- C4 witness: for offsets `[0, 120, 300]` and size 450 the first
derived length is 120. -/
theorem parse_grib_idx_forward_difference_witness :
    (grib_idx_lengths [0, 120, 300] 450)[0]? = some 120 := by
  simpa using parse_grib_idx_forward_difference.1 [0, 120, 300] 450 0 (by norm_num)

/-- C9: given lines that all parse, `parse_grib_idx` fails if and only
if `validate = true` and the parsed `attrs` column has duplicates; in
particular with `validate = false` duplicates never cause an error. -/
theorem parse_grib_idx_validate_iff :
    ∀ (lines : List String) (size : Int) (validate : Bool) (raw : List RawIdxLine),
      lines.mapM parse_idx_line = some raw →
      ((∃ e, parse_grib_idx lines size validate = .error e) ↔
        (validate = true ∧ ¬ (raw.map (·.attrs)).Nodup)) := by
  intro lines size validate raw h
  have hlen : raw.length ≤
      (grib_idx_lengths (raw.map (·.offset)) size).length := by
    rw [grib_idx_lengths_length, List.length_map]
  simp only [parse_grib_idx, h]
  rw [zip_entries_attrs raw _ hlen]
  by_cases hv : validate = true
  · subst hv
    rcases hd : has_dup (raw.map (·.attrs)) with _ | _
    · have : (raw.map (·.attrs)).Nodup := (has_dup_eq_false_iff _).mp hd
      simp [hd, this]
    · have : ¬ (raw.map (·.attrs)).Nodup := by
        intro hn
        rw [(has_dup_eq_false_iff _).mpr hn] at hd
        exact Bool.false_ne_true hd
      simp [hd, this]
  · have hv' : validate = false := by
      cases validate
      · rfl
      · exact absurd rfl hv
    subst hv'
    simp

/-- C9 witness: two lines with the same attrs `A` and `validate = true`
make `parse_grib_idx` fail. -/
theorem parse_grib_idx_validate_iff_witness :
    ∃ e, parse_grib_idx ["0:0:d:A", "1:5:d:A"] 9 true = .error e :=
  (parse_grib_idx_validate_iff ["0:0:d:A", "1:5:d:A"] 9 true
    [⟨0, 0, "d", "A"⟩, ⟨1, 5, "d", "A"⟩] rfl).mpr ⟨rfl, by decide⟩

/-- C10: `build_path` joins the non-`None` path segments followed by the
non-`None` suffix with `/`, strips all leading `/` characters, never
returns a string beginning with `/`, and omits `None` elements without
leaving an empty separator. -/
theorem build_path_spec :
    ∀ (path : List (Option String)) (suffix : Option String),
      build_path path suffix =
        lstrip_slash (String.intercalate "/" (path.filterMap id ++ suffix.toList)) ∧
      (∀ t : String, build_path path suffix ≠ "/" ++ t) ∧
      (build_path path suffix).data.head? ≠ some '/' ∧
      build_path (none :: path) suffix = build_path path suffix := by
  intro path suffix
  refine ⟨?_, ?_, lstrip_slash_head _, ?_⟩
  · simp only [build_path, List.filterMap_append]
    cases suffix <;> rfl
  · intro t ht
    have hdata : (build_path path suffix).data = '/' :: t.data := by
      rw [ht]
      rfl
    have := lstrip_slash_head
      (String.intercalate "/" ((path ++ [suffix]).filterMap id))
    rw [show (lstrip_slash (String.intercalate "/"
        ((path ++ [suffix]).filterMap id))).data
        = (build_path path suffix).data from rfl, hdata] at this
    simp at this
  · simp [build_path]

/-- C10 witness: a leading `None` segment is dropped without leaving an
empty separator. -/
theorem build_path_spec_witness :
    build_path [none, some "a"] (some "0") = build_path [some "a"] (some "0") :=
  (build_path_spec [some "a"] (some "0")).2.2.2

/-! ## `grib_tree` dimension treatment (grib2.py lines 491-510)

Python:
```
concat_dims = ["time", "step"]
identical_dims = ["longitude", "latitude"]
for path in aggregations.keys():
    catdims = concat_dims.copy()
    idims = identical_dims.copy()
    level_dimension_value_count = len(aggregation_dims.get(path, ()))
    level_group_name = path.split("/")[-1]
    if level_dimension_value_count == 0: pass
    elif level_dimension_value_count == 1: idims.append(level_group_name)
    elif level_dimension_value_count > 1: catdims.insert(3, level_group_name)
```
-/

/-- Python `list.insert(i, x)`: insert before index `i`, clamping `i`
to the list length (so an out-of-range index appends at the end). -/
def py_insert (i : Nat) (x : α) (l : List α) : List α :=
  l.take i ++ x :: l.drop i

/-- `path.split("/")[-1]`: the last path segment. -/
def grib_tree_level_name (path : String) : String :=
  (str_split_on '/' path).getLastD ""

/-- The per-node `(catdims, idims)` computed by `grib_tree` from the
number of distinct level coordinate values at the node's path. -/
def grib_tree_dims (level_dimension_value_count : Nat) (path : String) :
    List String × List String :=
  let catdims := ["time", "step"]
  let idims := ["longitude", "latitude"]
  let level_group_name := grib_tree_level_name path
  if level_dimension_value_count = 0 then
    (catdims, idims)
  else if level_dimension_value_count = 1 then
    (catdims, idims ++ [level_group_name])
  else
    (py_insert 3 level_group_name catdims, idims)

/-- C1 counterexample: with 2 distinct level values the level group name
is NOT at index 3 of the resulting concat dims: `insert(3, ...)` on the
2-element default list clamps, so the name lands at index 2 and index 3
does not exist. -/
theorem grib_tree_dims_index_three_counterexample :
    (grib_tree_dims 2 "u/instant/isobaricInhPa").1
        = ["time", "step", "isobaricInhPa"] ∧
    (grib_tree_dims 2 "u/instant/isobaricInhPa").1[3]? = none ∧
    (grib_tree_dims 2 "u/instant/isobaricInhPa").1[2]? = some "isobaricInhPa" :=
  ⟨rfl, rfl, rfl⟩

/-- C1 (amended): with 0 distinct level values the defaults are
unchanged; with exactly 1 the level group name is appended to
`identical_dims` and (when distinct from the default concat dims) never
appears in `concat_dims`; with 2 or more the level group name is placed
at index 2 of `concat_dims` — the end of the 2-element default list,
since Python clamps `insert(3, ...)` — and (when distinct from the
default identical dims) never appears in `identical_dims`. -/
theorem grib_tree_dims_spec :
    ∀ (count : Nat) (path : String),
      (count = 0 →
        grib_tree_dims count path = (["time", "step"], ["longitude", "latitude"])) ∧
      (count = 1 →
        (grib_tree_dims count path).2
            = ["longitude", "latitude", grib_tree_level_name path] ∧
        (grib_tree_dims count path).1 = ["time", "step"] ∧
        (grib_tree_level_name path ≠ "time" → grib_tree_level_name path ≠ "step" →
          grib_tree_level_name path ∉ (grib_tree_dims count path).1)) ∧
      (2 ≤ count →
        (grib_tree_dims count path).1
            = ["time", "step", grib_tree_level_name path] ∧
        (grib_tree_dims count path).1[2]? = some (grib_tree_level_name path) ∧
        (grib_tree_dims count path).2 = ["longitude", "latitude"] ∧
        (grib_tree_level_name path ≠ "longitude" →
          grib_tree_level_name path ≠ "latitude" →
          grib_tree_level_name path ∉ (grib_tree_dims count path).2)) := by
  intro count path
  refine ⟨?_, ?_, ?_⟩
  · intro h
    subst h
    rfl
  · intro h
    subst h
    refine ⟨rfl, rfl, ?_⟩
    intro h1 h2
    simp [grib_tree_dims, h1, h2]
  · intro h
    have h0 : count ≠ 0 := by omega
    have h1 : count ≠ 1 := by omega
    have hcat : (grib_tree_dims count path).1
        = ["time", "step", grib_tree_level_name path] := by
      simp [grib_tree_dims, h0, h1, py_insert]
    have hid : (grib_tree_dims count path).2 = ["longitude", "latitude"] := by
      simp [grib_tree_dims, h0, h1]
    refine ⟨hcat, ?_, hid, ?_⟩
    · rw [hcat]
      rfl
    · intro hlon hlat
      rw [hid]
      simp [hlon, hlat]

/-- C1 witness: a node with two distinct level values over path
`u/instant/isobaricInhPa` gets concat dims
`["time", "step", "isobaricInhPa"]`. -/
theorem grib_tree_dims_spec_witness :
    (grib_tree_dims 2 "u/instant/isobaricInhPa").1
      = ["time", "step", "isobaricInhPa"] :=
  ((grib_tree_dims_spec 2 "u/instant/isobaricInhPa").2.2 (by norm_num)).1

/-! ## Ancestor attribute accumulation in `extract_dataset_chunk_index`
(grib2.py lines 704-712)

Python:
```
attributes = dset.attrs.copy()
walk_group = dset.parent
while walk_group:
    attributes.update(walk_group.attrs)
    walk_group = walk_group.parent
```
Attribute mappings are modelled by their lookup function
`String → Option Int`; `dict.update(other)` overwrites existing keys
with `other`'s values.
-/

/-- Python `dict.update`: keys of `other` win over keys of `base`. -/
def dict_update (base other : String → Option Int) : String → Option Int :=
  fun k =>
    match other k with
    | some v => some v
    | none => base k

/-- The attribute dictionary built by the ancestor walk: start from the
node's own attrs, then `update` with each ancestor's attrs, walking
parent first, root last. -/
def walk_group_attrs (own : String → Option Int)
    (ancestors : List (String → Option Int)) : String → Option Int :=
  ancestors.foldl dict_update own

lemma findSome?_append (f : α → Option β) (l₁ l₂ : List α) :
    (l₁ ++ l₂).findSome? f =
      match l₁.findSome? f with
      | some b => some b
      | none => l₂.findSome? f := by
  induction l₁ with
  | nil => simp [List.findSome?_nil]
  | cons x xs ih =>
    simp only [List.cons_append, List.findSome?_cons]
    cases f x <;> simp [ih]

lemma walk_group_attrs_eq_findSome? (ancestors : List (String → Option Int)) :
    ∀ (own : String → Option Int) (k : String),
      walk_group_attrs own ancestors k
        = ((own :: ancestors).reverse).findSome? (fun d => d k) := by
  induction ancestors with
  | nil =>
    intro own k
    simp only [walk_group_attrs, List.foldl_nil, List.reverse_cons,
      List.reverse_nil, List.nil_append, List.findSome?_cons, List.findSome?_nil]
    cases own k <;> rfl
  | cons a as ih =>
    intro own k
    have step : walk_group_attrs own (a :: as) k
        = walk_group_attrs (dict_update own a) as k := rfl
    rw [step, ih (dict_update own a) k]
    have hl : ((dict_update own a) :: as).reverse
        = as.reverse ++ [dict_update own a] := by simp
    have hr : (own :: a :: as).reverse = as.reverse ++ [a, own] := by simp
    rw [hl, hr, findSome?_append, findSome?_append]
    cases hfs : as.reverse.findSome? (fun d => d k) with
    | some v => rfl
    | none =>
      simp only [List.findSome?_cons, List.findSome?_nil]
      unfold dict_update
      cases a k <;> cases own k <;> rfl

/-- C2 counterexample node: the variable's own node sets
`heightAboveGround = 2` while its parent sets `heightAboveGround = 10`. -/
def c2_own_attrs : String → Option Int :=
  fun k => if k = "heightAboveGround" then some 2 else none

/-- C2 counterexample parent attributes. -/
def c2_parent_attrs : String → Option Int :=
  fun k => if k = "heightAboveGround" then some 10 else none

/-- C2 counterexample: the attribute set at the variable's own node IS
overridden by the same-named attribute of an ancestor: the walk yields
the parent's value 10, not the node's own value 2, so "the closest
node's value wins" is false. -/
theorem walk_group_attrs_counterexample :
    walk_group_attrs c2_own_attrs [c2_parent_attrs] "heightAboveGround" = some 10 ∧
    c2_own_attrs "heightAboveGround" = some 2 :=
  ⟨rfl, rfl⟩

/-- C2 (amended): each record carries the attributes accumulated by
walking from the variable's node up through its ancestors, but
`dict.update` lets every ancestor overwrite what was collected so far:
for any key the value is the first hit when searching root first, i.e.
the FARTHEST ancestor defining the key wins, not the closest node. -/
theorem walk_group_attrs_farthest_wins :
    ∀ (own : String → Option Int) (ancestors : List (String → Option Int))
      (k : String),
      walk_group_attrs own ancestors k
        = ((own :: ancestors).reverse).findSome? (fun d => d k) :=
  fun own ancestors k => walk_group_attrs_eq_findSome? ancestors own k

/-! ## Chunk resolution and dimension classification in
`extract_dataset_chunk_index` (grib2.py lines 714-776) -/

/-- A scalar sitting inside a 3-element reference list (in practice a
uri string and two integers; the code does not check the types). -/
inductive PyAtom where
  | s (v : String)
  | i (v : Int)
deriving Repr, DecidableEq

/-- A value of the flat reference store: a JSON list, a text value, a
bytes value, or anything else. -/
inductive StoreVal where
  | arr (elems : List PyAtom)
  | text (v : String)
  | bin (v : String)
  | other
deriving Repr, DecidableEq

/-- The chunk-location fields of one emitted index record. -/
structure ChunkData where
  uri : Option PyAtom
  offset : PyAtom
  length : PyAtom
  inline_value : Option StoreVal
deriving Repr, DecidableEq

/-- Outcome for one chunk key in `extract_dataset_chunk_index`. -/
inductive ChunkOutcome where
  | skipped
  | emitted (d : ChunkData)
  | err (key : String)
deriving Repr, DecidableEq

/-- grib2.py lines 759-776: resolve `ref_store.get(chunk_key)`.
`None` is skipped with a warning; a 3-element list becomes
uri/offset/length with `inline_value=None`; `str`/`bytes` becomes an
inline value with offset and length `-1`; anything else raises
`ValueError`. -/
def resolve_chunk_ref (chunk_key : String) (chunk_ref : Option StoreVal) :
    ChunkOutcome :=
  match chunk_ref with
  | none => .skipped
  | some (.arr [u, o, l]) => .emitted ⟨some u, o, l, none⟩
  | some (.text s) => .emitted ⟨none, .i (-1), .i (-1), some (.text s)⟩
  | some (.bin b) => .emitted ⟨none, .i (-1), .i (-1), some (.bin b)⟩
  | some (.arr _) => .err chunk_key
  | some .other => .err chunk_key

/-- C3: every emitted record populates exactly one of the two chunk
location forms: a byte-range triple (uri/offset/length set,
`inline_value = None`) or an inline value (`inline_value` set, offset
and length both the sentinel `-1`, no uri); never `inline_value` set
together with an offset different from `-1`. -/
theorem resolve_chunk_ref_exclusive :
    ∀ (key : String) (ref : Option StoreVal) (d : ChunkData),
      resolve_chunk_ref key ref = .emitted d →
      ((d.inline_value = none ∧
          ∃ u o l, ref = some (.arr [u, o, l]) ∧ d = ⟨some u, o, l, none⟩) ∨
        (∃ v, d.inline_value = some v ∧ d.offset = .i (-1) ∧
          d.length = .i (-1) ∧ d.uri = none ∧
          ((∃ s, ref = some (.text s)) ∨ ∃ b, ref = some (.bin b)))) ∧
      (∀ v, d.inline_value = some v → d.offset = .i (-1) ∧ d.length = .i (-1)) := by
  intro key ref d h
  match ref with
  | none => simp [resolve_chunk_ref] at h
  | some (.text s) =>
    simp only [resolve_chunk_ref, ChunkOutcome.emitted.injEq] at h
    subst h
    exact ⟨Or.inr ⟨.text s, rfl, rfl, rfl, rfl, Or.inl ⟨s, rfl⟩⟩,
      fun v _ => ⟨rfl, rfl⟩⟩
  | some (.bin b) =>
    simp only [resolve_chunk_ref, ChunkOutcome.emitted.injEq] at h
    subst h
    exact ⟨Or.inr ⟨.bin b, rfl, rfl, rfl, rfl, Or.inr ⟨b, rfl⟩⟩,
      fun v _ => ⟨rfl, rfl⟩⟩
  | some .other => simp [resolve_chunk_ref] at h
  | some (.arr []) => simp [resolve_chunk_ref] at h
  | some (.arr [a]) => simp [resolve_chunk_ref] at h
  | some (.arr [a, b]) => simp [resolve_chunk_ref] at h
  | some (.arr [u, o, l]) =>
    simp only [resolve_chunk_ref, ChunkOutcome.emitted.injEq] at h
    subst h
    refine ⟨Or.inl ⟨rfl, u, o, l, rfl, rfl⟩, ?_⟩
    intro v hv
    simp at hv
  | some (.arr (a :: b :: c :: x :: rest)) => simp [resolve_chunk_ref] at h

/-- C3 witness: the record emitted for an inline text entry has offset
and length equal to the sentinel `-1`. -/
theorem resolve_chunk_ref_exclusive_witness :
    (⟨none, .i (-1), .i (-1), some (.text "abc")⟩ : ChunkData).offset = .i (-1) ∧
    (⟨none, .i (-1), .i (-1), some (.text "abc")⟩ : ChunkData).length = .i (-1) :=
  (resolve_chunk_ref_exclusive "u/instant/u/0.0.0" (some (.text "abc"))
    ⟨none, .i (-1), .i (-1), some (.text "abc")⟩ rfl).2 (.text "abc") rfl

/-- C7: the four outcomes of manifest-entry resolution: an absent entry
is skipped (no error); a 3-element list is recorded as
uri/offset/length; a str or bytes entry is recorded inline with offset
and length `-1`; any other entry shape is a fatal error. -/
theorem resolve_chunk_ref_outcomes :
    ∀ (key : String),
      resolve_chunk_ref key none = .skipped ∧
      (∀ u o l, resolve_chunk_ref key (some (.arr [u, o, l]))
          = .emitted ⟨some u, o, l, none⟩) ∧
      (∀ s, resolve_chunk_ref key (some (.text s))
          = .emitted ⟨none, .i (-1), .i (-1), some (.text s)⟩) ∧
      (∀ b, resolve_chunk_ref key (some (.bin b))
          = .emitted ⟨none, .i (-1), .i (-1), some (.bin b)⟩) ∧
      (∀ es, es.length ≠ 3 →
          resolve_chunk_ref key (some (.arr es)) = .err key) ∧
      resolve_chunk_ref key (some .other) = .err key := by
  intro key
  refine ⟨rfl, fun u o l => rfl, fun s => rfl, fun b => rfl, ?_, rfl⟩
  intro es hlen
  match es with
  | [] => rfl
  | [a] => rfl
  | [a, b] => rfl
  | [a, b, c] => simp at hlen
  | a :: b :: c :: x :: rest => rfl

/-- C7 witness: a 2-element list entry is a fatal error, an absent
entry is skipped, a 3-element list is recorded as a byte range. -/
theorem resolve_chunk_ref_outcomes_witness :
    resolve_chunk_ref "t/instant/t/0.0.0" (some (.arr [.s "u", .i 7]))
        = .err "t/instant/t/0.0.0" ∧
    resolve_chunk_ref "t/instant/t/0.0.0" none = .skipped :=
  ⟨(resolve_chunk_ref_outcomes "t/instant/t/0.0.0").2.2.2.2.1
      [.s "u", .i 7] (by norm_num),
    (resolve_chunk_ref_outcomes "t/instant/t/0.0.0").1⟩

/-! ## Dimension/chunk classification (grib2.py lines 720-730)

Python:
```
for ddim_nane, ddim_size, dchunk_size in zip(dvar.dims, dshape, dchunk):
    if dchunk_size == 1:
        index_dims[ddim_nane] = ddim_size
    elif dchunk_size != ddim_size:
        raise ValueError(...)
    # Drop the dim where each chunk covers the whole dimension
```
-/

/-- One `(name, size, chunk_size)` triple from
`zip(dvar.dims, dshape, dchunk)`. -/
structure DimChunk where
  name : String
  size : Nat
  chunk : Nat
deriving Repr, DecidableEq

/-- Classify a data variable's dimensions: chunk size 1 becomes an
index dimension, chunk size equal to the extent is dropped, anything
else raises `ValueError` naming the dimension. -/
def classify_dims : List DimChunk → Except String (List (String × Nat))
  | [] => .ok []
  | d :: rest =>
    if d.chunk = 1 then
      match classify_dims rest with
      | .ok l => .ok ((d.name, d.size) :: l)
      | .error e => .error e
    else if d.chunk ≠ d.size then
      .error d.name
    else
      classify_dims rest

/-- C6: classifying a variable's dimensions raises exactly when some
dimension has chunk size neither 1 nor the full extent, the raised
error names such a dimension, chunk-size-1 dimensions become index
dimensions (keyed with their extent), and full-extent chunks are
dropped without error. -/
theorem classify_dims_spec :
    ∀ (dims : List DimChunk),
      ((∃ e, classify_dims dims = .error e) ↔
        ∃ d ∈ dims, d.chunk ≠ 1 ∧ d.chunk ≠ d.size) ∧
      (∀ e, classify_dims dims = .error e →
        ∃ d ∈ dims, d.name = e ∧ d.chunk ≠ 1 ∧ d.chunk ≠ d.size) ∧
      (∀ l, classify_dims dims = .ok l →
        l = (dims.filter (fun d => d.chunk == 1)).map (fun d => (d.name, d.size))) := by
  intro dims
  induction dims with
  | nil =>
    refine ⟨?_, ?_, ?_⟩
    · simp [classify_dims]
    · intro e he
      simp [classify_dims] at he
    · intro l hl
      simp only [classify_dims, Except.ok.injEq] at hl
      simp [← hl]
  | cons d rest ih =>
    obtain ⟨ih1, ih2, ih3⟩ := ih
    by_cases h1 : d.chunk = 1
    · have hstep : classify_dims (d :: rest) =
          match classify_dims rest with
          | .ok l => .ok ((d.name, d.size) :: l)
          | .error e => .error e := by
        simp [classify_dims, h1]
      refine ⟨?_, ?_, ?_⟩
      · constructor
        · intro ⟨e, he⟩
          rw [hstep] at he
          match hrest : classify_dims rest with
          | .ok l => rw [hrest] at he; simp at he
          | .error e2 =>
            obtain ⟨d2, hd2, hd2c⟩ := ih1.mp ⟨e2, hrest⟩
            exact ⟨d2, List.mem_cons_of_mem d hd2, hd2c⟩
        · intro ⟨d2, hd2, hc1, hcs⟩
          rcases List.mem_cons.mp hd2 with heq | hmem
          · subst heq
            exact absurd h1 hc1
          · obtain ⟨e, he⟩ := ih1.mpr ⟨d2, hmem, hc1, hcs⟩
            refine ⟨e, ?_⟩
            rw [hstep, he]
      · intro e he
        rw [hstep] at he
        match hrest : classify_dims rest with
        | .ok l => rw [hrest] at he; simp at he
        | .error e2 =>
          rw [hrest] at he
          simp only [Except.error.injEq] at he
          subst he
          obtain ⟨d2, hd2, hn, hc⟩ := ih2 e2 hrest
          exact ⟨d2, List.mem_cons_of_mem d hd2, hn, hc⟩
      · intro l hl
        rw [hstep] at hl
        match hrest : classify_dims rest with
        | .error e2 => rw [hrest] at hl; simp at hl
        | .ok l2 =>
          rw [hrest] at hl
          simp only [Except.ok.injEq] at hl
          subst hl
          rw [ih3 l2 hrest]
          simp [List.filter_cons, h1]
    · by_cases h2 : d.chunk = d.size
      · have hstep : classify_dims (d :: rest) = classify_dims rest := by
          have hne : ¬ (d.chunk ≠ d.size) := fun hc => hc h2
          simp only [classify_dims]
          rw [if_neg h1, if_neg hne]
        refine ⟨?_, ?_, ?_⟩
        · rw [hstep]
          constructor
          · intro he
            obtain ⟨d2, hd2, hc⟩ := ih1.mp he
            exact ⟨d2, List.mem_cons_of_mem d hd2, hc⟩
          · intro ⟨d2, hd2, hc1, hcs⟩
            rcases List.mem_cons.mp hd2 with heq | hmem
            · subst heq
              exact absurd h2 hcs
            · exact ih1.mpr ⟨d2, hmem, hc1, hcs⟩
        · intro e he
          rw [hstep] at he
          obtain ⟨d2, hd2, hn, hc⟩ := ih2 e he
          exact ⟨d2, List.mem_cons_of_mem d hd2, hn, hc⟩
        · intro l hl
          rw [hstep] at hl
          rw [ih3 l hl]
          have : (d.chunk == 1) = false := by simpa using h1
          simp [List.filter_cons, this]
      · have hstep : classify_dims (d :: rest) = .error d.name := by
          simp [classify_dims, h1, h2]
        refine ⟨?_, ?_, ?_⟩
        · rw [hstep]
          constructor
          · intro _
            exact ⟨d, List.mem_cons_self d rest, h1, h2⟩
          · intro _
            exact ⟨d.name, rfl⟩
        · intro e he
          rw [hstep] at he
          simp only [Except.error.injEq] at he
          subst he
          exact ⟨d, List.mem_cons_self d rest, rfl, h1, h2⟩
        · intro l hl
          rw [hstep] at hl
          simp at hl

/-- C6 witness: dimension `x` with extent 4 and chunk size 2 raises an
error naming a dimension with non-unit, non-full chunking. -/
theorem classify_dims_spec_witness :
    ∃ d ∈ [(⟨"x", 4, 2⟩ : DimChunk)], d.name = "x" ∧ d.chunk ≠ 1 ∧ d.chunk ≠ d.size :=
  (classify_dims_spec [⟨"x", 4, 2⟩]).2.1 "x" rfl

/-! ## Primary-variable selection and the unknown-variable drop in
`grib_tree` (grib2.py lines 416-446)

Python:
```
for msg_ind, group in enumerate(message_groups):
    coordinates = gattrs["coordinates"].split(" ")
    vname = None
    for key, entry in group["refs"].items():
        name = key.split("/")[0]
        if name not in [".zattrs", ".zgroup"] and name not in coordinates:
            vname = name
            break
    if vname is None:
        raise RuntimeError(...)
    if vname == "unknown":
        unknown_counter += 1
        continue
    ...
    aggregations[zgroup.path].append(group)
```
-/

/-- One scanned message group, reduced to what the primary-variable
scan reads: the store keys in iteration order and the parsed
`coordinates` attribute. -/
structure MessageGroup where
  refKeys : List String
  coordinates : List String
deriving Repr, DecidableEq

/-- The inner loop: the first top-level key-name that is neither group
metadata nor one of the declared coordinates. -/
def find_data_var (g : MessageGroup) : Option String :=
  (g.refKeys.map (fun k => (str_split_on '/' k).headD "")).find?
    (fun n => !(n == ".zattrs" || n == ".zgroup" || g.coordinates.contains n))

/-- The fragment loop of `grib_tree`, reduced to its control flow:
starting at message index `i`, return the number of dropped "unknown"
fragments and the `(msg_ind, vname)` pairs of the fragments placed into
the hierarchy, or the index of a fragment with no data variable. -/
def grib_tree_scan_from (i : Nat) :
    List MessageGroup → Except Nat (Nat × List (Nat × String))
  | [] => .ok (0, [])
  | g :: rest =>
    match find_data_var g with
    | none => .error i
    | some v =>
      if v = "unknown" then
        match grib_tree_scan_from (i + 1) rest with
        | .ok (c, pl) => .ok (c + 1, pl)
        | .error e => .error e
      else
        match grib_tree_scan_from (i + 1) rest with
        | .ok (c, pl) => .ok (c, (i, v) :: pl)
        | .error e => .error e

/-- The fragment loop of `grib_tree` over all message groups. -/
def grib_tree_scan (groups : List MessageGroup) :
    Except Nat (Nat × List (Nat × String)) :=
  grib_tree_scan_from 0 groups


lemma grib_tree_scan_from_cons_none (i : Nat) (g : MessageGroup)
    (rest : List MessageGroup) (hf : find_data_var g = none) :
    grib_tree_scan_from i (g :: rest) = .error i := by
  simp [grib_tree_scan_from, hf]

lemma grib_tree_scan_from_cons_unknown (i : Nat) (g : MessageGroup)
    (rest : List MessageGroup) (hf : find_data_var g = some "unknown") :
    grib_tree_scan_from i (g :: rest) =
      match grib_tree_scan_from (i + 1) rest with
      | .ok (c, pl) => .ok (c + 1, pl)
      | .error e => .error e := by
  simp [grib_tree_scan_from, hf]

lemma grib_tree_scan_from_cons_var (i : Nat) (g : MessageGroup)
    (rest : List MessageGroup) (v : String) (hf : find_data_var g = some v)
    (hv : v ≠ "unknown") :
    grib_tree_scan_from i (g :: rest) =
      match grib_tree_scan_from (i + 1) rest with
      | .ok (c, pl) => .ok (c, (i, v) :: pl)
      | .error e => .error e := by
  simp [grib_tree_scan_from, hf, hv]

lemma grib_tree_scan_from_error_iff (groups : List MessageGroup) :
    ∀ (i : Nat),
      (∃ e, grib_tree_scan_from i groups = .error e) ↔
        ∃ g ∈ groups, find_data_var g = none := by
  induction groups with
  | nil =>
    intro i
    simp [grib_tree_scan_from]
  | cons g rest ih =>
    intro i
    cases hf : find_data_var g with
    | none =>
      rw [grib_tree_scan_from_cons_none i g rest hf]
      simp only [iff_iff_implies_and_implies]
      exact ⟨fun _ => ⟨g, List.mem_cons_self g rest, hf⟩, fun _ => ⟨i, rfl⟩⟩
    | some v =>
      have hstep : ∀ e, grib_tree_scan_from i (g :: rest) = .error e ↔
          grib_tree_scan_from (i + 1) rest = .error e := by
        intro e
        by_cases hv : v = "unknown"
        · subst hv
          rw [grib_tree_scan_from_cons_unknown i g rest hf]
          cases hrest : grib_tree_scan_from (i + 1) rest with
          | error e2 => simp
          | ok p => simp
        · rw [grib_tree_scan_from_cons_var i g rest v hf hv]
          cases hrest : grib_tree_scan_from (i + 1) rest with
          | error e2 => simp
          | ok p => simp
      constructor
      · intro ⟨e, he⟩
        obtain ⟨g2, hg2, hg2f⟩ := (ih (i + 1)).mp ⟨e, (hstep e).mp he⟩
        exact ⟨g2, List.mem_cons_of_mem g hg2, hg2f⟩
      · intro ⟨g2, hg2, hg2f⟩
        rcases List.mem_cons.mp hg2 with heq | hmem
        · subst heq
          rw [hf] at hg2f
          exact absurd hg2f (by simp)
        · obtain ⟨e, he⟩ := (ih (i + 1)).mpr ⟨g2, hmem, hg2f⟩
          exact ⟨e, (hstep e).mpr he⟩

lemma grib_tree_scan_from_ok (groups : List MessageGroup) :
    ∀ (i : Nat) (c : Nat) (pl : List (Nat × String)),
      grib_tree_scan_from i groups = .ok (c, pl) →
      c = (groups.filter (fun g => find_data_var g == some "unknown")).length ∧
      (∀ j v, (j, v) ∈ pl →
        v ≠ "unknown" ∧
        ∃ k, ∃ h : k < groups.length, j = i + k ∧
          find_data_var (groups.get ⟨k, h⟩) = some v) := by
  induction groups with
  | nil =>
    intro i c pl h
    simp only [grib_tree_scan_from, Except.ok.injEq, Prod.mk.injEq] at h
    obtain ⟨hc, hpl⟩ := h
    subst hc
    subst hpl
    refine ⟨rfl, ?_⟩
    intro j v hj
    simp at hj
  | cons g rest ih =>
    intro i c pl h
    cases hf : find_data_var g with
    | none =>
      rw [grib_tree_scan_from_cons_none i g rest hf] at h
      simp at h
    | some v0 =>
      by_cases hv : v0 = "unknown"
      · subst hv
        rw [grib_tree_scan_from_cons_unknown i g rest hf] at h
        cases hrest : grib_tree_scan_from (i + 1) rest with
        | error e =>
          rw [hrest] at h
          simp at h
        | ok p =>
          obtain ⟨c2, pl2⟩ := p
          rw [hrest] at h
          simp only [Except.ok.injEq, Prod.mk.injEq] at h
          obtain ⟨hc, hpl⟩ := h
          obtain ⟨ihc, ihpl⟩ := ih (i + 1) c2 pl2 hrest
          constructor
          · rw [← hc, ihc]
            simp [List.filter_cons, hf]
          · intro j v hj
            rw [← hpl] at hj
            obtain ⟨hvne, k, hk, hj', hfk⟩ := ihpl j v hj
            refine ⟨hvne, k + 1, by simpa using Nat.succ_lt_succ hk, by omega, ?_⟩
            simpa using hfk
      · rw [grib_tree_scan_from_cons_var i g rest v0 hf hv] at h
        cases hrest : grib_tree_scan_from (i + 1) rest with
        | error e =>
          rw [hrest] at h
          simp at h
        | ok p =>
          obtain ⟨c2, pl2⟩ := p
          rw [hrest] at h
          simp only [Except.ok.injEq, Prod.mk.injEq] at h
          obtain ⟨hc, hpl⟩ := h
          obtain ⟨ihc, ihpl⟩ := ih (i + 1) c2 pl2 hrest
          constructor
          · have hne : (find_data_var g == some "unknown") = false := by
              rw [hf]
              simpa using hv
            rw [← hc, ihc]
            simp [List.filter_cons, hne]
          · intro j v hj
            rw [← hpl] at hj
            rcases List.mem_cons.mp hj with heq | hmem
            · have hji : j = i := congrArg Prod.fst heq
              have hvv : v = v0 := congrArg Prod.snd heq
              subst hji
              subst hvv
              exact ⟨hv, 0, by simp, by omega, by simpa using hf⟩
            · obtain ⟨hvne, k, hk, hj', hfk⟩ := ihpl j v hmem
              refine ⟨hvne, k + 1, by simpa using Nat.succ_lt_succ hk, by omega, ?_⟩
              simpa using hfk

/-- C8: `grib_tree`'s fragment loop fails with a fatal error exactly
when some fragment has no top-level entry name outside the group
metadata and the declared coordinates; every placed fragment's primary
variable is its first qualifying entry name and is not "unknown"; the
drop counter equals the number of fragments whose primary variable is
"unknown"; and a fragment whose primary variable is "unknown"
contributes nothing to the hierarchy. -/
theorem grib_tree_scan_spec :
    ∀ (groups : List MessageGroup),
      ((∃ e, grib_tree_scan groups = .error e) ↔
        ∃ g ∈ groups, find_data_var g = none) ∧
      (∀ c pl, grib_tree_scan groups = .ok (c, pl) →
        c = (groups.filter (fun g => find_data_var g == some "unknown")).length ∧
        (∀ j v, (j, v) ∈ pl → v ≠ "unknown" ∧
          ∃ h : j < groups.length, find_data_var (groups.get ⟨j, h⟩) = some v) ∧
        (∀ j (h : j < groups.length),
          find_data_var (groups.get ⟨j, h⟩) = some "unknown" →
            ∀ v, (j, v) ∉ pl)) := by
  intro groups
  refine ⟨grib_tree_scan_from_error_iff groups 0, ?_⟩
  intro c pl hok
  obtain ⟨hc, hpl⟩ := grib_tree_scan_from_ok groups 0 c pl hok
  refine ⟨hc, ?_, ?_⟩
  · intro j v hj
    obtain ⟨hvne, k, hk, hj', hfk⟩ := hpl j v hj
    have hkj : k = j := by omega
    subst hkj
    exact ⟨hvne, hk, hfk⟩
  · intro j h hunk v hjv
    obtain ⟨hvne, k, hk, hj', hfk⟩ := hpl j v hjv
    have hkj : k = j := by omega
    subst hkj
    have hgg : groups.get ⟨k, hk⟩ = groups.get ⟨k, h⟩ := rfl
    rw [hgg, hunk] at hfk
    exact hvne (Option.some.inj hfk).symm

/-- C8 witness fragment whose primary variable decodes as "unknown". -/
def c8_unknown_group : MessageGroup :=
  ⟨[".zattrs", ".zgroup", "unknown/.zattrs", "unknown/0.0"],
    ["latitude", "longitude"]⟩

/-- C8 witness fragment with primary variable `t`. -/
def c8_temp_group : MessageGroup :=
  ⟨[".zattrs", ".zgroup", "t/.zattrs", "t/0.0"], ["latitude"]⟩

/-- C8 witness: scanning an "unknown" fragment followed by a `t`
fragment drops exactly one fragment, and the placement list holds only
the `t` fragment. -/
theorem grib_tree_scan_spec_witness :
    (1 : Nat) = (([c8_unknown_group, c8_temp_group].filter
        (fun g => find_data_var g == some "unknown")).length) ∧
    (0, "unknown") ∉ ([(1, "t")] : List (Nat × String)) :=
  ⟨((grib_tree_scan_spec [c8_unknown_group, c8_temp_group]).2 1 [(1, "t")] rfl).1,
    ((grib_tree_scan_spec [c8_unknown_group, c8_temp_group]).2 1 [(1, "t")]
      rfl).2.2 0 (by norm_num) rfl "unknown"⟩

/-! ## Validation in `build_idx_grib_mapping` (grib2.py lines 936-982)

Python:
```
all_match_offset = (
    (result["offset_idx"] == result["offset_grib"])
    | pd.isna(result["offset_grib"])
    | ~pd.isna(result["inline_value"]))
...
if not all_match_offset.all():
    vcs = all_match_offset.value_counts()
    raise ValueError(f"... {vcs[True]} matched, {vcs[False]} didn't")
...
if not result["attrs"].is_unique: logger.warning(...)
r_index = result.set_index([...])
if not r_index.index.is_unique: logger.warning(...)
```
NB: when no row matches, `vcs[True]` itself raises `KeyError` before
the `ValueError` message can be built.
-/

/-- One joined row of the idx/grib mapping table.  `offset_grib`,
`length_grib` and `inline_value` come from the left join and may be
missing (pandas `NaN`, modelled as `none`). -/
structure MappingRow where
  offset_idx : Int
  offset_grib : Option Int
  length_idx : Int
  length_grib : Option Int
  inline_value : Option String
  attrs : String
  varname : String
  typeOfLevel : String
  stepType : String
  level : Int
  valid_time : Int
deriving Repr, DecidableEq

/-- `all_match_offset` for one row: the authoritative offset equals the
computed one, or the computed offset is missing, or the row is inline. -/
def match_offset (r : MappingRow) : Bool :=
  (r.offset_grib == some r.offset_idx) || r.offset_grib.isNone ||
    r.inline_value.isSome

/-- `all_match_length` for one row. -/
def match_length (r : MappingRow) : Bool :=
  (r.length_grib == some r.length_idx) || r.length_grib.isNone ||
    r.inline_value.isSome

/-- The errors the validation block can raise. -/
inductive MappingValidationError where
  | offsetMismatch (matched mismatched : Nat)
  | lengthMismatch (matched mismatched : Nat)
  | countKeyError
deriving Repr, DecidableEq

/-- The `validate=True` block of `build_idx_grib_mapping`: raise on any
offset mismatch (then on any length mismatch), where the raised error
carries `value_counts()[True]`/`[False]` — but a `value_counts()` of an
all-`False` column has no `True` key, so that lookup itself fails
(`countKeyError`).  Duplicate `attrs` and duplicate composite keys only
append warnings and never raise. -/
def validate_mapping (rows : List MappingRow) :
    Except MappingValidationError (List String) :=
  let mo := (rows.filter match_offset).length
  let no := (rows.filter (fun r => !(match_offset r))).length
  if no ≠ 0 then
    if mo = 0 then .error .countKeyError else .error (.offsetMismatch mo no)
  else
    let ml := (rows.filter match_length).length
    let nl := (rows.filter (fun r => !(match_length r))).length
    if nl ≠ 0 then
      if ml = 0 then .error .countKeyError else .error (.lengthMismatch ml nl)
    else
      let warns1 :=
        if has_dup (rows.map (·.attrs)) then
          ["idx attribute mapping is not unique"] else []
      let warns2 :=
        if (rows.map (fun r =>
              (r.varname, r.typeOfLevel, r.stepType, r.level, r.valid_time))).length
            ≠ (rows.map (fun r =>
              (r.varname, r.typeOfLevel, r.stepType, r.level, r.valid_time))).dedup.length
        then ["grib hierarchy is not unique"] else []
      .ok (warns1 ++ warns2)

/-- C5 failing row: authoritative offset 100, computed offset 250,
not inline — the single row mismatches, so `value_counts()` has no
`True` entry and `vcs[True]` raises `KeyError` instead of the
`ValueError` reporting matched/mismatched counts. -/
def c5_row : MappingRow :=
  ⟨100, some 250, 50, some 50, none, "a", "v", "surface", "instant", 0, 0⟩

/-- C5: at the failing input — a single joined row whose authoritative
offset differs from the present, non-inline computed offset — the row
violates the offset-match disjunction, and the code raises the
count-lookup error (`vcs[True]` on a counts table without a `True`
key), not the `ValueError` reporting the counts of matched versus
mismatched rows; duplicate attrs and duplicate composite keys never
raise (they only produce warnings, as on an all-matching duplicate-key
table). -/
theorem validate_mapping_count_key_bug :
    match_offset c5_row = false ∧
    validate_mapping [c5_row] = .error .countKeyError ∧
    validate_mapping
        [⟨100, some 100, 50, some 50, none, "a", "v", "surface", "instant", 0, 0⟩,
         ⟨200, some 200, 50, some 50, none, "a", "v", "surface", "instant", 0, 0⟩]
      = .ok ["idx attribute mapping is not unique", "grib hierarchy is not unique"] :=
  ⟨rfl, rfl, rfl⟩
